import Mathlib

/-!
Verification development for the breakage/exchange ("quebras/trocas") tracking
application.  The repository is a thin React client over a Supabase backend; the
logic verified here is the submission approval state machine, the row-level
security (RLS) policy rules, the export routines, and the client-side guard
functions, each translated into executable Lean definitions from the source.

Two parallel iterations coexist in the repository:
* an English-schema app (tables `submissions` / `items` / `users` / `logs`,
  statuses `pending` / `approved` / `rejected`) — `Approvals.tsx`,
  `AuthContext` with a hardcoded admin, the `Users` page;
* a Portuguese-schema app (tables `lancamentos` / `itens` / `produtos` /
  `logs`, statuses `pendente` / `aprovado` / `rejeitado`) — the SQL migration
  with RLS policies, `Admin.tsx`, `HistoricoLancamentos.tsx`.
One `Status` type serves both (`pendente` = `pending`, etc.).
-/

namespace QuebrasTrocas

/-- Submission status: `pendente` / `aprovado` / `rejeitado`
(English schema: `pending` / `approved` / `rejected`). -/
inductive Status
  | pendente
  | aprovado
  | rejeitado
deriving DecidableEq

/-- The profile flag stored in `raw_user_meta_data ->> 'perfil'`. -/
inductive Perfil
  | admin
  | usuario
deriving DecidableEq

/-- The identity against which an RLS policy is evaluated: `auth.uid()`, the
`perfil` metadata flag, and whether the request carries the `service_role`
JWT claim (`auth.jwt() ->> 'role' = 'service_role'`, i.e. the backend key). -/
structure Caller where
  uid : String
  perfil : Perfil
  serviceRole : Bool
deriving DecidableEq

/-- A row of the `lancamentos` (submissions) table. -/
structure Lancamento where
  id : String
  usuario_id : String
  status : Status
  observacoes : String
  observacoes_admin : Option String
deriving DecidableEq

/-- A row of the `itens` (line items) table. -/
structure Item where
  id : String
  lancamento_id : String
  produto_id : String
  quantidade : Nat
  motivo : String
  fotos : List String
deriving DecidableEq

/-- A row of the `produtos` (products) table. -/
structure Produto where
  id : String
  nome : String
  codigo : String
  capacidade : String
deriving DecidableEq

/-! ### RLS policy evaluators (SQL migration, `CREATE POLICY` statements)

Postgres combines all permissive policies that apply to a command with OR. -/

/-- `EXISTS (SELECT 1 FROM auth.users WHERE id = auth.uid() AND
raw_user_meta_data->>'perfil' = 'admin')`. -/
def isAdminMeta (c : Caller) : Bool :=
  c.perfil == Perfil.admin

/-- Policy "Admins gerenciam todos lançamentos" (FOR ALL):
`auth.jwt() ->> 'role' = 'service_role' OR` admin metadata. -/
def adminAllLancPolicy (c : Caller) : Bool :=
  c.serviceRole || isAdminMeta c

/-- Policy "Usuários veem seus lançamentos" (FOR SELECT):
`auth.uid() = usuario_id OR` admin metadata. -/
def lancSelectUserPolicy (c : Caller) (l : Lancamento) : Bool :=
  c.uid == l.usuario_id || isAdminMeta c

/-- Combined SELECT decision on a `lancamentos` row (OR of the applicable
permissive policies). -/
def lancSelectAllowed (c : Caller) (l : Lancamento) : Bool :=
  lancSelectUserPolicy c l || adminAllLancPolicy c

/-- Policy "Usuários atualizam seus lançamentos pendentes" (FOR UPDATE):
`auth.uid() = usuario_id AND status = 'pendente'`. -/
def lancUpdateUserPolicy (c : Caller) (l : Lancamento) : Bool :=
  c.uid == l.usuario_id && l.status == Status.pendente

/-- Combined UPDATE decision on a `lancamentos` row. -/
def lancUpdateAllowed (c : Caller) (l : Lancamento) : Bool :=
  lancUpdateUserPolicy c l || adminAllLancPolicy c

/-- Policy "Usuários criam itens para seus lançamentos" (FOR INSERT):
the parent submission exists, is owned by the caller, and is still pending. -/
def itemInsertUserPolicy (c : Caller) (lancs : List Lancamento) (it : Item) : Bool :=
  lancs.any fun l =>
    l.id == it.lancamento_id && l.usuario_id == c.uid && l.status == Status.pendente

/-- Policy "Admins gerenciam todos itens" (FOR ALL). -/
def adminAllItemPolicy (c : Caller) : Bool :=
  c.serviceRole || isAdminMeta c

/-- Combined INSERT decision on an `itens` row (migration `part_000`). -/
def itemInsertAllowed (c : Caller) (lancs : List Lancamento) (it : Item) : Bool :=
  itemInsertUserPolicy c lancs it || adminAllItemPolicy c

/-- README variant of the item INSERT policy ("Usuários podem inserir itens",
`part_012`): ownership of the parent only — no pending-status conjunct and no
admin FOR ALL policy on `itens`. -/
def itemInsertAllowedReadme (c : Caller) (lancs : List Lancamento) (it : Item) : Bool :=
  lancs.any fun l => l.id == it.lancamento_id && l.usuario_id == c.uid

/-! ### The admin decision operation (`atualizarStatusLancamento`, `Admin.tsx`)

The client issues `update({ status: novoStatus, observacoes_admin:
observacaoAprovacao || undefined }).eq('id', lancamentoId)` — the filter is on
the row id only; the store then applies the update to every matching row the
caller is allowed to update under RLS.  An `undefined` field is dropped from
the payload, so an empty observation leaves the column untouched. -/

/-- The TypeScript parameter type `novoStatus: 'aprovado' | 'rejeitado'`. -/
inductive Decisao
  | aprovado
  | rejeitado
deriving DecidableEq

/-- The status written by a decision. -/
def Decisao.toStatus : Decisao → Status
  | Decisao.aprovado => Status.aprovado
  | Decisao.rejeitado => Status.rejeitado

/-- Effect of the decision update on a single row: rows matching the id filter
and permitted by the UPDATE policies get the new terminal status (and the admin
observation when non-empty); every other row is untouched. -/
def atualizarLinha (c : Caller) (lancamentoId : String) (novoStatus : Decisao)
    (observacao : String) (l : Lancamento) : Lancamento :=
  if l.id == lancamentoId && lancUpdateAllowed c l then
    { l with
      status := novoStatus.toStatus,
      observacoes_admin := if observacao == "" then l.observacoes_admin else some observacao }
  else l

/-- `atualizarStatusLancamento` as a transformation of the `lancamentos` table. -/
def atualizarStatusLancamento (c : Caller) (lancamentoId : String) (novoStatus : Decisao)
    (observacao : String) (db : List Lancamento) : List Lancamento :=
  db.map (atualizarLinha c lancamentoId novoStatus observacao)

/-- Number of rows matched by the decision update's filter (`eq('id', ...)`
intersected with the rows the caller may update under RLS). -/
def linhasAfetadas (c : Caller) (lancamentoId : String) (db : List Lancamento) : Nat :=
  (db.filter fun l => l.id == lancamentoId && lancUpdateAllowed c l).length

/-! ### Audit log entries -/

/-- A row of the English-schema `logs` table as inserted by `handleApproval`. -/
structure LogEntry where
  user_id : String
  action : String
  details : String
deriving DecidableEq

/-- `atualizarStatusLancamento` together with the `logs` table: the source
function performs the status update and never inserts into `logs`. -/
def atualizarStatusComLogs (c : Caller) (lancamentoId : String) (novoStatus : Decisao)
    (observacao : String) (db : List Lancamento) (logs : List LogEntry) :
    List Lancamento × List LogEntry :=
  (atualizarStatusLancamento c lancamentoId novoStatus observacao db, logs)

/-! ### The English-schema approval handler (`handleApproval`, `Approvals.tsx`) -/

/-- A row of the English-schema `submissions` table. -/
structure Submission where
  id : String
  user_id : String
  status : Status
  comments : Option String
deriving DecidableEq

/-- The `submissions` update issued by `handleApproval`: `update({ status:
approved ? 'approved' : 'rejected', comments: comments.trim() || null
}).eq('id', currentSubmission.id)` — again no status predicate in the filter. -/
def handleApprovalUpdate (submissionId : String) (approved : Bool) (comments : String)
    (subs : List Submission) : List Submission :=
  subs.map fun s =>
    if s.id == submissionId then
      { s with
        status := if approved then Status.aprovado else Status.rejeitado,
        comments := if comments.trim == "" then none else some comments.trim }
    else s

/-- The `logs` row inserted by `handleApproval` after the update. -/
def approvalLogEntry (actorId : String) (submissionId : String) (approved : Bool) : LogEntry :=
  { user_id := actorId,
    action := if approved then "approve_submission" else "reject_submission",
    details := (if approved then "Approved" else "Rejected") ++ " submission ID: " ++ submissionId }

/-- `handleApproval` as a transformation of the `submissions` and `logs`
tables: update the submission row, then append one log entry. -/
def handleApproval (actorId : String) (submissionId : String) (approved : Bool)
    (comments : String) (subs : List Submission) (logs : List LogEntry) :
    List Submission × List LogEntry :=
  (handleApprovalUpdate submissionId approved comments subs,
   logs ++ [approvalLogEntry actorId submissionId approved])

/-! ### Product deletion guard (`handleDeleteProduct`, `Products` page) -/

/-- `handleDeleteProduct`: count the `items` rows referencing the product; if
any exist, refuse and change nothing (second component `false`); otherwise
delete the product row (second component `true`). -/
def handleDeleteProduct (produtos : List Produto) (itens : List Item) (alvo : Produto) :
    List Produto × Bool :=
  let count := (itens.filter fun it => it.produto_id == alvo.id).length
  if 0 < count then (produtos, false)
  else (produtos.filter fun p => p.id != alvo.id, true)

/-! ### CSV export (`exportarTodosParaCSV`, `HistoricoLancamentos.tsx` /
`Admin.tsx`)

The routine builds a header row plus one row per item of each submission, then
escapes each cell: a cell matching `/[,"\n\r]/` is wrapped in double quotes
with every embedded double quote doubled; any other cell is emitted verbatim.
Date formatting (date-fns) is kept abstract: `data_hora` holds the already
formatted text. -/

/-- The `/[,"\n\r]/.test(cell)` check. -/
def campoEspecial (s : String) : Bool :=
  s.data.any fun ch => ch == ',' || ch == '"' || ch == '\n' || ch == '\r'

/-- `cell.replace(/"/g, '""')`: double every double-quote character. -/
def duplicarAspas : List Char → List Char
  | [] => []
  | ch :: resto =>
    if ch == '"' then '"' :: '"' :: duplicarAspas resto
    else ch :: duplicarAspas resto

/-- Undo the quote doubling (used to state that the escaping is invertible,
i.e. that quotes are escaped "per CSV escaping rules"). -/
def reduzirAspas : List Char → List Char
  | [] => []
  | [ch] => [ch]
  | ch :: ch2 :: resto =>
    if ch == '"' && ch2 == '"' then '"' :: reduzirAspas resto
    else ch :: reduzirAspas (ch2 :: resto)

/-- Cell escaping as performed by the export routines. -/
def escaparCampo (s : String) : String :=
  if campoEspecial s then "\"" ++ String.mk (duplicarAspas s.data) ++ "\"" else s

/-- The item fields used by the CSV export. -/
structure ItemCSV where
  codigo : String
  nome : String
  capacidade : Option String
  quantidade : Nat
  motivo : String
  tipo_operacao : String
deriving DecidableEq

/-- A submission together with its loaded items, as exported. -/
structure LancamentoCSV where
  id : String
  observacoes : String
  data_hora : String
  status : Status
  itens : List ItemCSV
deriving DecidableEq

/-- `status.charAt(0).toUpperCase() + status.slice(1)`. -/
def statusCapitalizado : Status → String
  | Status.pendente => "Pendente"
  | Status.aprovado => "Aprovado"
  | Status.rejeitado => "Rejeitado"

/-- The header row of `exportarTodosParaCSV`. -/
def cabecalhoCSV : List String :=
  ["ID do Lançamento", "Observações", "Data/Hora", "Status",
   "Código do Produto", "Nome do Produto", "Capacidade (ml)",
   "Quantidade", "Motivo", "Tipo de Operação"]

/-- One data row: the item joined with its submission fields. -/
def linhaItem (l : LancamentoCSV) (it : ItemCSV) : List String :=
  [l.id, l.observacoes, l.data_hora, statusCapitalizado l.status,
   it.codigo, it.nome, it.capacidade.getD "N/A", toString it.quantidade,
   it.motivo, if it.tipo_operacao == "troca" then "Troca" else "Quebra"]

/-- The `dadosCSV` array: header row, then one row per item (the source skips
a submission whose item list is empty, which contributes no rows either way). -/
def dadosCSV (ls : List LancamentoCSV) : List (List String) :=
  cabecalhoCSV ::
    ls.flatMap fun l => if l.itens.length == 0 then [] else l.itens.map (linhaItem l)

/-- The final CSV text: cells escaped, joined by commas, rows joined by
newlines. -/
def csvContent (ls : List LancamentoCSV) : String :=
  String.intercalate "\n"
    ((dadosCSV ls).map fun row => String.intercalate "," (row.map escaparCampo))

/-! ### ZIP photo export (`downloadAllImages`, `Approvals.tsx`)

One fetch per photo; the promises are combined with `Promise.all`, whose
rejection propagates to the surrounding try/catch, so a single failed fetch
aborts the whole batch and no archive is generated.  A fetch is modelled as a
function from the photo URL to `Option` of the blob bytes (`none` = failure). -/

/-- The product fields carried by a reviewed submission item. -/
structure ApprovalProduct where
  name : String
  code : String
  capacity : Nat
deriving DecidableEq

/-- An item of the submission under review. -/
structure ApprovalItem where
  id : String
  quantity : Nat
  reason : String
  photos : List String
  product : ApprovalProduct
deriving DecidableEq

/-- `Item${itemIndex + 1}_${item.product.code}_${photoIndex + 1}.jpg`. -/
def photoFileName (itemIndex : Nat) (codigo : String) (photoIndex : Nat) : String :=
  "Item" ++ toString (itemIndex + 1) ++ "_" ++ codigo ++ "_" ++
    toString (photoIndex + 1) ++ ".jpg"

/-- The (file name, URL) pairs requested by `downloadAllImages`, in the order
the nested `forEach` loops issue them. -/
def photoRequests (items : List ApprovalItem) : List (String × String) :=
  items.enum.flatMap fun p =>
    p.2.photos.enum.map fun q => (photoFileName p.1 p.2.product.code q.1, q.2)

/-- `downloadAllImages`: if every fetch succeeds, the archive holds one entry
per photo and the success toast shows a fixed message; if any fetch fails,
`Promise.all` rejects and the catch block reports an error with no archive. -/
def downloadAllImages (fetchBlob : String → Option String) (items : List ApprovalItem) :
    Except String (List (String × String) × String) :=
  let pedidos := photoRequests items
  if pedidos.all fun p => (fetchBlob p.2).isSome then
    Except.ok (pedidos.filterMap fun p => (fetchBlob p.2).map fun b => (p.1, b),
               "All photos have been downloaded as a ZIP file")
  else Except.error "Error downloading images"

/-! ### Login and user listing (English-schema app: `AuthContext`, `Users`) -/

/-- The `role` column of the English-schema `users` table. -/
inductive Role
  | admin
  | user
deriving DecidableEq

/-- The `status` column of the English-schema `users` table. -/
inductive UserStatus
  | active
  | inactive
deriving DecidableEq

/-- A row of the English-schema `users` table (`password` is the bcrypt hash). -/
structure UserRow where
  id : String
  employee_id : String
  name : String
  password : String
  role : Role
  status : UserStatus
deriving DecidableEq

/-- The session user object the login flow stores. -/
structure SessionUser where
  id : String
  employee_id : String
  name : String
  role : Role
  status : UserStatus
deriving DecidableEq

/-- The session produced by the hardcoded special case in `login`. -/
def hardcodedAdmin : SessionUser :=
  { id := "admin", employee_id := "00123456", name := "Administrator",
    role := Role.admin, status := UserStatus.active }

/-- `login` from `AuthContext`: the exact pair `00123456` / `admin` yields the
hardcoded admin session before the `users` table or any stored hash is
consulted; otherwise the first active row with the employee id is looked up
(`.single()`) and the password checked with `bcrypt.compare`, modelled as the
abstract predicate `bcryptCompare`. -/
def login (bcryptCompare : String → String → Bool) (users : List UserRow)
    (employee_id password : String) : Option SessionUser :=
  if employee_id == "00123456" && password == "admin" then some hardcodedAdmin
  else
    match users.find? fun u =>
        u.employee_id == employee_id && u.status == UserStatus.active with
    | none => none
    | some u =>
      if bcryptCompare password u.password then
        some { id := u.id, employee_id := u.employee_id, name := u.name,
               role := u.role, status := u.status }
      else none

/-- `fetchUsers` from the `Users` page: `select('*').neq('employee_id',
'00123456')` — the hardcoded admin is excluded from the listing (the by-name
ordering is irrelevant here and omitted). -/
def fetchUsers (users : List UserRow) : List UserRow :=
  users.filter fun u => u.employee_id != "00123456"

/-! ### Submission deletion (`excluirLancamento`, `HistoricoLancamentos.tsx`) -/

/-- The authenticated app user as built from Supabase auth metadata. -/
structure AppUser where
  id : String
  perfil : Perfil
deriving DecidableEq

/-- `excluirLancamento`: re-read the row by id (`.single()`), raise an error if
it is missing, if the caller is neither the owner nor an admin, or if the
status is no longer pending; otherwise delete the row (its items go with it,
`itens.lancamento_id ON DELETE CASCADE`).  An error leaves both tables
unchanged. -/
def excluirLancamento (usuario : AppUser) (lancamentoId : String)
    (lancs : List Lancamento) (itens : List Item) :
    Except String (List Lancamento × List Item) :=
  match lancs.find? fun l => l.id == lancamentoId with
  | none => Except.error "Lançamento não encontrado"
  | some l =>
    if l.usuario_id != usuario.id && usuario.perfil != Perfil.admin then
      Except.error "Você não tem permissão para excluir este lançamento"
    else if l.status != Status.pendente then
      Except.error "Apenas lançamentos pendentes podem ser excluídos"
    else
      Except.ok (lancs.filter fun x => x.id != lancamentoId,
                 itens.filter fun it => it.lancamento_id != lancamentoId)

/-! ## Theorems -/

/-- Claim C3: for every caller and every submission row, the SELECT decision of
the combined RLS policies is allow if and only if the caller owns the row or
holds the admin profile; hence a caller who is neither can never read another
user's (pending) submission.  The `serviceRole = false` hypothesis excludes the
storage backend's own key, which is not an application caller. -/
theorem lanc_read_allowed_iff_owner_or_admin (c : Caller) (l : Lancamento)
    (hs : c.serviceRole = false) :
    (lancSelectAllowed c l = true ↔ (c.uid = l.usuario_id ∨ c.perfil = Perfil.admin)) ∧
    (c.uid ≠ l.usuario_id → c.perfil ≠ Perfil.admin → lancSelectAllowed c l = false) := by
  constructor
  · simp [lancSelectAllowed, lancSelectUserPolicy, adminAllLancPolicy, isAdminMeta, hs]
  · intro hown hadm
    simp [lancSelectAllowed, lancSelectUserPolicy, adminAllLancPolicy, isAdminMeta, hs,
      hown, hadm]

/-- Witness for C3 at concrete inputs: the owner may read, a stranger may not. -/
theorem lanc_read_allowed_iff_owner_or_admin_witness :
    lancSelectAllowed ⟨"u1", Perfil.usuario, false⟩ ⟨"L1", "u1", Status.pendente, "", none⟩ = true ∧
    lancSelectAllowed ⟨"u9", Perfil.usuario, false⟩ ⟨"L1", "u1", Status.pendente, "", none⟩ = false := by
  constructor
  · exact (lanc_read_allowed_iff_owner_or_admin ⟨"u1", Perfil.usuario, false⟩
      ⟨"L1", "u1", Status.pendente, "", none⟩ rfl).1.mpr (Or.inl rfl)
  · exact (lanc_read_allowed_iff_owner_or_admin ⟨"u9", Perfil.usuario, false⟩
      ⟨"L1", "u1", Status.pendente, "", none⟩ rfl).2 (by decide) (by decide)

/-- Claim C4 counterexample: the combined item INSERT policies of the migration
also include the admin catch-all, so an admin caller may insert an item whose
parent submission is owned by someone else and is no longer pending — the
claim's "denied" direction fails. -/
theorem item_insert_admin_bypass_counterexample :
    itemInsertAllowed ⟨"a1", Perfil.admin, false⟩
      [⟨"L1", "u2", Status.aprovado, "", none⟩]
      ⟨"I1", "L1", "P1", 1, "quebra", []⟩ = true ∧
    ("u2" : String) ≠ "a1" ∧ Status.aprovado ≠ Status.pendente := by
  refine ⟨rfl, by decide, by decide⟩

/-- Claim C4 (amended): for a non-admin application caller the migration's
combined item INSERT decision is allow iff the caller owns the parent
submission and it is still pending; the README variant of the policy checks
ownership only, with no pending-status conjunct.  (An admin caller is allowed
regardless, per the counterexample.) -/
theorem item_insert_user_policy_iff (c : Caller) (lancs : List Lancamento) (it : Item)
    (hp : c.perfil = Perfil.usuario) (hs : c.serviceRole = false) :
    (itemInsertAllowed c lancs it = true ↔
      ∃ l ∈ lancs, l.id = it.lancamento_id ∧ l.usuario_id = c.uid ∧
        l.status = Status.pendente) ∧
    (itemInsertAllowedReadme c lancs it = true ↔
      ∃ l ∈ lancs, l.id = it.lancamento_id ∧ l.usuario_id = c.uid) := by
  constructor
  · simp [itemInsertAllowed, itemInsertUserPolicy, adminAllItemPolicy, isAdminMeta,
      hp, hs, List.any_eq_true, and_assoc]
  · simp [itemInsertAllowedReadme, List.any_eq_true]

/-- Witness for C4's amended theorem: a concrete owner inserting into their own
pending submission is allowed under both policy variants. -/
theorem item_insert_user_policy_iff_witness :
    itemInsertAllowed ⟨"u1", Perfil.usuario, false⟩
      [⟨"L1", "u1", Status.pendente, "", none⟩]
      ⟨"I1", "L1", "P1", 2, "quebra", []⟩ = true := by
  exact (item_insert_user_policy_iff ⟨"u1", Perfil.usuario, false⟩
      [⟨"L1", "u1", Status.pendente, "", none⟩]
      ⟨"I1", "L1", "P1", 2, "quebra", []⟩ rfl rfl).1.mpr
    ⟨⟨"L1", "u1", Status.pendente, "", none⟩, by decide, rfl, rfl, rfl⟩

/-- Claim C9: the login flow is backdoored.  For the exact pair
`00123456` / `admin` it returns the hardcoded active admin session whatever the
`users` table holds and whatever the password-hash comparison does, and the
user-management listing filters that employee id out. -/
theorem hardcoded_admin_login (bcryptCompare : String → String → Bool)
    (users : List UserRow) :
    login bcryptCompare users "00123456" "admin" = some hardcodedAdmin ∧
    hardcodedAdmin.id = "admin" ∧
    hardcodedAdmin.role = Role.admin ∧
    hardcodedAdmin.status = UserStatus.active ∧
    ∀ u ∈ fetchUsers users, u.employee_id ≠ "00123456" := by
  refine ⟨rfl, rfl, rfl, rfl, ?_⟩
  intro u hu
  have h := (List.mem_filter.mp hu).2
  simpa using h

/-- Witness for C9: the backdoor fires against a concrete one-row users table
(with a comparison that rejects everything), and the listed row is not the
hardcoded admin. -/
theorem hardcoded_admin_login_witness :
    login (fun _ _ => false)
      [⟨"u1", "11112222", "Ana", "hash", Role.user, UserStatus.active⟩]
      "00123456" "admin" = some hardcodedAdmin ∧
    (⟨"u1", "11112222", "Ana", "hash", Role.user, UserStatus.active⟩ : UserRow).employee_id
      ≠ "00123456" := by
  constructor
  · exact (hardcoded_admin_login (fun _ _ => false)
      [⟨"u1", "11112222", "Ana", "hash", Role.user, UserStatus.active⟩]).1
  · exact (hardcoded_admin_login (fun _ _ => false)
      [⟨"u1", "11112222", "Ana", "hash", Role.user, UserStatus.active⟩]).2.2.2.2
      ⟨"u1", "11112222", "Ana", "hash", Role.user, UserStatus.active⟩ (by decide)

/-- Helper: the decision update never changes a row's id. -/
theorem atualizarLinha_id (c : Caller) (lancamentoId : String) (novoStatus : Decisao)
    (observacao : String) (l : Lancamento) :
    (atualizarLinha c lancamentoId novoStatus observacao l).id = l.id := by
  unfold atualizarLinha
  by_cases h : (l.id == lancamentoId && lancUpdateAllowed c l) = true <;> simp [h]

/-- Helper: an admin caller passes the combined UPDATE policy on every row. -/
theorem lancUpdateAllowed_admin (c : Caller) (l : Lancamento)
    (h : isAdminMeta c = true) : lancUpdateAllowed c l = true := by
  simp [lancUpdateAllowed, adminAllLancPolicy, h]

/-- Helper: for an admin caller the decision filter matches exactly the rows
with the targeted id. -/
theorem linhasAfetadas_admin (c : Caller) (lancamentoId : String) (db : List Lancamento)
    (h : isAdminMeta c = true) :
    linhasAfetadas c lancamentoId db
      = (db.filter fun l => l.id == lancamentoId).length := by
  unfold linhasAfetadas
  congr 1
  apply List.filter_congr
  intro l _
  simp [lancUpdateAllowed_admin c l h]

/-- Claim C1 counterexample: an admin decision targeting an already-approved
submission does not no-op — the update filter checks only the row id, the
admin UPDATE policy has no status conjunct, so the row is rewritten to
rejected (a transition out of a terminal state). -/
theorem decision_overwrites_terminal_counterexample :
    atualizarStatusLancamento ⟨"a1", Perfil.admin, false⟩ "L1" Decisao.rejeitado ""
      [⟨"L1", "u2", Status.aprovado, "obs", none⟩]
      = [⟨"L1", "u2", Status.rejeitado, "obs", none⟩] ∧
    Status.aprovado ≠ Status.rejeitado := by
  refine ⟨rfl, by decide⟩

/-- Claim C1 (amended): the decision operation only ever writes a terminal
status (never back to pending); each row is either untouched or set to the
chosen terminal status, the latter only when the row matches the id filter
and the caller passes the UPDATE policies; a non-admin application caller
cannot touch a non-pending row.  But a decision on an already-decided row by
an admin overwrites it rather than no-oping (see the counterexample). -/
theorem decision_only_to_terminal (c : Caller) (lancamentoId : String)
    (novoStatus : Decisao) (observacao : String) (db : List Lancamento) :
    novoStatus.toStatus ≠ Status.pendente ∧
    atualizarStatusLancamento c lancamentoId novoStatus observacao db
      = db.map (atualizarLinha c lancamentoId novoStatus observacao) ∧
    (∀ l : Lancamento,
      atualizarLinha c lancamentoId novoStatus observacao l = l ∨
      ((atualizarLinha c lancamentoId novoStatus observacao l).status = novoStatus.toStatus ∧
        l.id = lancamentoId ∧ lancUpdateAllowed c l = true)) ∧
    (∀ l : Lancamento, c.perfil = Perfil.usuario → c.serviceRole = false →
      l.status ≠ Status.pendente →
      atualizarLinha c lancamentoId novoStatus observacao l = l) := by
  refine ⟨?_, rfl, ?_, ?_⟩
  · cases novoStatus <;> simp [Decisao.toStatus]
  · intro l
    by_cases h : (l.id == lancamentoId && lancUpdateAllowed c l) = true
    · right
      have h2 := (Bool.and_eq_true _ _).mp h
      exact ⟨by simp [atualizarLinha, h], beq_iff_eq.mp h2.1, h2.2⟩
    · left
      simp [atualizarLinha, h]
  · intro l hp hs hst
    have hall : lancUpdateAllowed c l = false := by
      simp [lancUpdateAllowed, lancUpdateUserPolicy, adminAllLancPolicy, isAdminMeta,
        hp, hs, hst]
    simp [atualizarLinha, hall]

/-- Witness for C1's amended theorem: a concrete non-admin caller leaves a
concrete approved row untouched, and the written status is terminal. -/
theorem decision_only_to_terminal_witness :
    Decisao.toStatus Decisao.aprovado ≠ Status.pendente ∧
    atualizarLinha ⟨"u1", Perfil.usuario, false⟩ "L1" Decisao.aprovado ""
      ⟨"L1", "u2", Status.aprovado, "", none⟩
      = ⟨"L1", "u2", Status.aprovado, "", none⟩ := by
  refine ⟨(decision_only_to_terminal ⟨"u1", Perfil.usuario, false⟩ "L1"
      Decisao.aprovado "" []).1, ?_⟩
  exact (decision_only_to_terminal ⟨"u1", Perfil.usuario, false⟩ "L1"
      Decisao.aprovado "" []).2.2.2 ⟨"L1", "u2", Status.aprovado, "", none⟩
      rfl rfl (by decide)

/-- Claim C2 counterexample: the decision update carries no
"status still pending" predicate.  Two sequential admin decisions on the same
pending row both match it: the first sets approved, the second still matches
one row (not zero) and silently overwrites the decision with rejected. -/
theorem double_decision_silent_overwrite_counterexample :
    atualizarStatusLancamento ⟨"a1", Perfil.admin, false⟩ "L1" Decisao.aprovado ""
      [⟨"L1", "u1", Status.pendente, "", none⟩]
      = [⟨"L1", "u1", Status.aprovado, "", none⟩] ∧
    atualizarStatusLancamento ⟨"a2", Perfil.admin, false⟩ "L1" Decisao.rejeitado ""
      [⟨"L1", "u1", Status.aprovado, "", none⟩]
      = [⟨"L1", "u1", Status.rejeitado, "", none⟩] ∧
    linhasAfetadas ⟨"a2", Perfil.admin, false⟩ "L1"
      [⟨"L1", "u1", Status.aprovado, "", none⟩] = 1 := by
  refine ⟨rfl, rfl, rfl⟩

/-- Claim C2 (amended): the decision update filters on the row id only, so for
admin callers a second decision on the same submission matches exactly as many
rows as the first did (never zero because the first succeeded) and rewrites
the status to the second decision — a silent overwrite, not a conflict. -/
theorem second_decision_matches_and_overwrites (a1 a2 : Caller) (lancamentoId : String)
    (d1 d2 : Decisao) (o1 o2 : String) (db : List Lancamento)
    (_h1 : isAdminMeta a1 = true) (h2 : isAdminMeta a2 = true) :
    linhasAfetadas a2 lancamentoId (atualizarStatusLancamento a1 lancamentoId d1 o1 db)
      = linhasAfetadas a2 lancamentoId db ∧
    ∀ l ∈ atualizarStatusLancamento a2 lancamentoId d2 o2
        (atualizarStatusLancamento a1 lancamentoId d1 o1 db),
      l.id = lancamentoId → l.status = d2.toStatus := by
  constructor
  · rw [linhasAfetadas_admin a2 lancamentoId _ h2, linhasAfetadas_admin a2 lancamentoId db h2]
    unfold atualizarStatusLancamento
    rw [List.filter_map, List.length_map]
    congr 1
    apply List.filter_congr
    intro l _
    simp [Function.comp, atualizarLinha_id]
  · intro l hl hid
    unfold atualizarStatusLancamento at hl
    rw [List.mem_map] at hl
    obtain ⟨l1, hl1, rfl⟩ := hl
    have hid1 : l1.id = lancamentoId := by
      rw [← atualizarLinha_id a2 lancamentoId d2 o2 l1]
      exact hid
    have hcond : (l1.id == lancamentoId && lancUpdateAllowed a2 l1) = true := by
      simp [hid1, lancUpdateAllowed_admin a2 l1 h2]
    simp [atualizarLinha, hcond]

/-- Witness for C2's amended theorem at a concrete one-row table and two
concrete admin callers. -/
theorem second_decision_matches_and_overwrites_witness :
    linhasAfetadas ⟨"a2", Perfil.admin, false⟩ "L1"
      (atualizarStatusLancamento ⟨"a1", Perfil.admin, false⟩ "L1" Decisao.aprovado ""
        [⟨"L1", "u1", Status.pendente, "", none⟩])
      = linhasAfetadas ⟨"a2", Perfil.admin, false⟩ "L1"
        [⟨"L1", "u1", Status.pendente, "", none⟩] :=
  (second_decision_matches_and_overwrites ⟨"a1", Perfil.admin, false⟩
    ⟨"a2", Perfil.admin, false⟩ "L1" Decisao.aprovado Decisao.rejeitado "" ""
    [⟨"L1", "u1", Status.pendente, "", none⟩] rfl rfl).1

/-- Claim C5: a product referenced by at least one item row is refused by
`handleDeleteProduct` with the product list unchanged; when the delete is
performed the product has zero references, and only the targeted product row
is removed. -/
theorem product_delete_refused_when_referenced (produtos : List Produto)
    (itens : List Item) (alvo : Produto) :
    ((∃ it ∈ itens, it.produto_id = alvo.id) →
      handleDeleteProduct produtos itens alvo = (produtos, false)) ∧
    ((handleDeleteProduct produtos itens alvo).2 = true →
      (∀ it ∈ itens, it.produto_id ≠ alvo.id) ∧
      (handleDeleteProduct produtos itens alvo).1
        = produtos.filter fun p => p.id != alvo.id) ∧
    ((∀ it ∈ itens, it.produto_id ≠ alvo.id) →
      handleDeleteProduct produtos itens alvo
        = (produtos.filter fun p => p.id != alvo.id, true)) := by
  refine ⟨?_, ?_, ?_⟩
  · rintro ⟨it, hmem, heq⟩
    have hpos : 0 < (itens.filter fun it => it.produto_id == alvo.id).length := by
      apply List.length_pos.mpr
      apply List.ne_nil_of_mem (a := it)
      exact List.mem_filter.mpr ⟨hmem, by simp [heq]⟩
    simp [handleDeleteProduct, hpos]
  · intro hdel
    by_cases hpos : 0 < (itens.filter fun it => it.produto_id == alvo.id).length
    · simp [handleDeleteProduct, hpos] at hdel
    · have hnil : (itens.filter fun it => it.produto_id == alvo.id) = [] := by
        have := Nat.eq_zero_of_not_pos hpos
        exact List.length_eq_zero.mp this
      refine ⟨?_, by simp [handleDeleteProduct, hpos]⟩
      intro it hmem heq
      have : it ∈ (itens.filter fun it => it.produto_id == alvo.id) :=
        List.mem_filter.mpr ⟨hmem, by simp [heq]⟩
      rw [hnil] at this
      exact (List.not_mem_nil it) this
  · intro hnone
    have hnil : (itens.filter fun it => it.produto_id == alvo.id) = [] := by
      apply List.filter_eq_nil_iff.mpr
      intro it hmem
      simp [hnone it hmem]
    simp [handleDeleteProduct, hnil]

/-- Witness for C5: a concrete referenced product is refused; a concrete
unreferenced product is deleted. -/
theorem product_delete_refused_when_referenced_witness :
    handleDeleteProduct [⟨"P1", "Produto 1", "C1", "1L"⟩]
      [⟨"I1", "L1", "P1", 1, "quebra", []⟩] ⟨"P1", "Produto 1", "C1", "1L"⟩
      = ([⟨"P1", "Produto 1", "C1", "1L"⟩], false) ∧
    handleDeleteProduct [⟨"P1", "Produto 1", "C1", "1L"⟩] []
      ⟨"P1", "Produto 1", "C1", "1L"⟩ = ([], true) := by
  constructor
  · exact (product_delete_refused_when_referenced [⟨"P1", "Produto 1", "C1", "1L"⟩]
      [⟨"I1", "L1", "P1", 1, "quebra", []⟩] ⟨"P1", "Produto 1", "C1", "1L"⟩).1
      ⟨⟨"I1", "L1", "P1", 1, "quebra", []⟩, by decide, rfl⟩
  · have h := (product_delete_refused_when_referenced [⟨"P1", "Produto 1", "C1", "1L"⟩]
      [] ⟨"P1", "Produto 1", "C1", "1L"⟩).2.2 (by intro it hmem; cases hmem)
    simpa using h

/-- Claim C10: `excluirLancamento` re-reads the row and errors out — leaving
the tables unchanged — when the caller is neither the owner nor an admin, or
when the status is no longer pending; a successful delete implies pending
status and owner-or-admin, and removes exactly the submission row and its
items. -/
theorem excluir_lancamento_guards (usuario : AppUser) (lancamentoId : String)
    (lancs : List Lancamento) (itens : List Item) (l : Lancamento)
    (hfind : (lancs.find? fun l => l.id == lancamentoId) = some l) :
    ((l.usuario_id ≠ usuario.id ∧ usuario.perfil ≠ Perfil.admin) →
      excluirLancamento usuario lancamentoId lancs itens
        = Except.error "Você não tem permissão para excluir este lançamento") ∧
    ((l.usuario_id = usuario.id ∨ usuario.perfil = Perfil.admin) →
      l.status ≠ Status.pendente →
      excluirLancamento usuario lancamentoId lancs itens
        = Except.error "Apenas lançamentos pendentes podem ser excluídos") ∧
    (∀ resultado, excluirLancamento usuario lancamentoId lancs itens
        = Except.ok resultado →
      l.status = Status.pendente ∧
      (l.usuario_id = usuario.id ∨ usuario.perfil = Perfil.admin) ∧
      resultado = (lancs.filter fun x => x.id != lancamentoId,
                   itens.filter fun it => it.lancamento_id != lancamentoId)) := by
  refine ⟨?_, ?_, ?_⟩
  · rintro ⟨hown, hadm⟩
    simp [excluirLancamento, hfind, hown, hadm]
  · intro hperm hst
    have hcond : (l.usuario_id != usuario.id && usuario.perfil != Perfil.admin) = false := by
      rcases hperm with h | h <;> simp [h]
    simp [excluirLancamento, hfind, hcond, hst]
  · intro resultado hok
    by_cases hperm : (l.usuario_id != usuario.id && usuario.perfil != Perfil.admin) = true
    · simp [excluirLancamento, hfind, hperm] at hok
    · by_cases hst : (l.status != Status.pendente) = true
      · simp [excluirLancamento, hfind, hperm, hst] at hok
      · have hst2 : l.status = Status.pendente := by
          simpa using hst
        have hperm2 : l.usuario_id = usuario.id ∨ usuario.perfil = Perfil.admin := by
          rcases Bool.not_eq_true _ |>.mp hperm with h
          by_cases ho : l.usuario_id = usuario.id
          · exact Or.inl ho
          · right
            by_contra hna
            simp [ho, hna] at h
        refine ⟨hst2, hperm2, ?_⟩
        have := hok
        simp [excluirLancamento, hfind, hperm, hst] at this
        exact this.symm

/-- Witness for C10: a stranger's delete of a concrete pending submission is
refused; the owner's delete of a rejected one is refused; a successful delete
of a concrete pending row by its owner removes the row and its item. -/
theorem excluir_lancamento_guards_witness :
    excluirLancamento ⟨"u9", Perfil.usuario⟩ "L1"
      [⟨"L1", "u1", Status.pendente, "", none⟩] []
      = Except.error "Você não tem permissão para excluir este lançamento" ∧
    excluirLancamento ⟨"u1", Perfil.usuario⟩ "L1"
      [⟨"L1", "u1", Status.rejeitado, "", none⟩] []
      = Except.error "Apenas lançamentos pendentes podem ser excluídos" := by
  constructor
  · exact (excluir_lancamento_guards ⟨"u9", Perfil.usuario⟩ "L1"
      [⟨"L1", "u1", Status.pendente, "", none⟩] [] ⟨"L1", "u1", Status.pendente, "", none⟩
      (by decide)).1 ⟨by decide, by decide⟩
  · exact (excluir_lancamento_guards ⟨"u1", Perfil.usuario⟩ "L1"
      [⟨"L1", "u1", Status.rejeitado, "", none⟩] [] ⟨"L1", "u1", Status.rejeitado, "", none⟩
      (by decide)).2.1 (Or.inl rfl) (by decide)

/-- Helper: prepending a non-quote character commutes with undoubling a
doubled tail. -/
theorem reduzirAspas_cons_ne (ch : Char) (cs : List Char) (h : ch ≠ '"') :
    reduzirAspas (ch :: duplicarAspas cs) = ch :: reduzirAspas (duplicarAspas cs) := by
  cases cs with
  | nil => simp [duplicarAspas, reduzirAspas]
  | cons c t =>
    by_cases hc : c = '"'
    · simp [duplicarAspas, reduzirAspas, hc, h]
    · simp [duplicarAspas, reduzirAspas, hc, h]

/-- Helper: undoubling inverts quote doubling — the escaping is lossless. -/
theorem reduzir_duplicar (cs : List Char) :
    reduzirAspas (duplicarAspas cs) = cs := by
  induction cs with
  | nil => rfl
  | cons ch resto ih =>
    by_cases hch : ch = '"'
    · simp [duplicarAspas, reduzirAspas, hch, ih]
    · rw [duplicarAspas]
      simp only [hch, if_neg, beq_iff_eq, ite_false]
      rw [reduzirAspas_cons_ne ch resto hch, ih]

/-- Helper: the CSV body contributes exactly one row per item. -/
theorem csv_body_length (ls : List LancamentoCSV) :
    (ls.flatMap fun l =>
        if l.itens.length == 0 then [] else l.itens.map (linhaItem l)).length
      = (ls.map fun l => l.itens.length).sum := by
  induction ls with
  | nil => rfl
  | cons l t ih =>
    rw [List.flatMap_cons, List.length_append, ih, List.map_cons, List.sum_cons]
    congr 1
    by_cases h : l.itens.length = 0
    · simp [h]
    · simp [h]

/-- Claim C6: for any list of submissions with N items in total, the exported
table has exactly 1 header row plus exactly N data rows (one per item joined
with its submission fields); a field containing a comma, double quote, CR or
LF is emitted wrapped in double quotes with embedded quotes doubled (an
invertible encoding), and any other field is emitted verbatim. -/
theorem csv_export_rows_and_escaping (ls : List LancamentoCSV) :
    (dadosCSV ls).length = 1 + (ls.map fun l => l.itens.length).sum ∧
    (∀ s : String, campoEspecial s = false → escaparCampo s = s) ∧
    (∀ s : String, campoEspecial s = true →
      escaparCampo s = "\"" ++ String.mk (duplicarAspas s.data) ++ "\"" ∧
      reduzirAspas (duplicarAspas s.data) = s.data) := by
  refine ⟨?_, ?_, ?_⟩
  · rw [dadosCSV, List.length_cons, csv_body_length]
    omega
  · intro s h
    simp [escaparCampo, h]
  · intro s h
    exact ⟨by simp [escaparCampo, h], reduzir_duplicar s.data⟩

/-- Witness for C6 at concrete fields: a plain field passes through, a field
with a comma is quoted, and undoubling recovers a field with a quote. -/
theorem csv_export_rows_and_escaping_witness :
    escaparCampo "ok" = "ok" ∧
    escaparCampo "a,b" = "\"" ++ String.mk (duplicarAspas ("a,b".data)) ++ "\"" ∧
    reduzirAspas (duplicarAspas ("x\"y".data)) = "x\"y".data :=
  ⟨(csv_export_rows_and_escaping []).2.1 "ok" (by decide),
   ((csv_export_rows_and_escaping []).2.2 "a,b" (by decide)).1,
   ((csv_export_rows_and_escaping []).2.2 "x\"y" (by decide)).2⟩

/-- Helper: when every fetch succeeds the archive keeps one entry per request. -/
theorem filterMap_length_of_all_isSome (pedidos : List (String × String))
    (fetchBlob : String → Option String)
    (h : ∀ p ∈ pedidos, (fetchBlob p.2).isSome = true) :
    (pedidos.filterMap fun p => (fetchBlob p.2).map fun b => (p.1, b)).length
      = pedidos.length := by
  induction pedidos with
  | nil => rfl
  | cons p t ih =>
    rw [List.filterMap_cons]
    have hp := h p (List.mem_cons_self p t)
    obtain ⟨b, hb⟩ := Option.isSome_iff_exists.mp hp
    rw [hb]
    simp only [Option.map_some']
    rw [List.length_cons, ih fun q hq => h q (List.mem_cons_of_mem p hq),
      List.length_cons]

/-- Claim C7 counterexample: with one photo fetch failing and the other
succeeding, `downloadAllImages` produces no archive at all — the rejection of
the combined promises aborts the whole batch (the successfully fetched photo
is not delivered either) and the routine reports a fixed error, not a
completed-versus-requested count. -/
theorem zip_failed_fetch_aborts_counterexample :
    downloadAllImages (fun u => if u == "foto1.jpg" then some "blob1" else none)
      [⟨"I1", 1, "quebra", ["foto1.jpg", "foto2.jpg"], ⟨"Produto 1", "P001", 500⟩⟩]
      = Except.error "Error downloading images" := rfl

/-- Claim C7 (amended): a single failed photo fetch rejects the combined
await and aborts the entire ZIP export — no archive is produced; when every
fetch succeeds the archive holds exactly one entry per requested photo and
the completion report is a fixed message, not a completed-versus-requested
count. -/
theorem zip_batch_all_or_nothing (fetchBlob : String → Option String)
    (items : List ApprovalItem) :
    ((∃ p ∈ photoRequests items, fetchBlob p.2 = none) →
      downloadAllImages fetchBlob items = Except.error "Error downloading images") ∧
    (∀ conteudo mensagem,
      downloadAllImages fetchBlob items = Except.ok (conteudo, mensagem) →
      conteudo.length = (photoRequests items).length ∧
      mensagem = "All photos have been downloaded as a ZIP file") := by
  constructor
  · rintro ⟨p, hp, hnone⟩
    have hall : ((photoRequests items).all fun p => (fetchBlob p.2).isSome) = false := by
      rw [Bool.eq_false_iff]
      intro htrue
      have := List.all_eq_true.mp htrue p hp
      rw [hnone] at this
      exact Bool.noConfusion this
    simp [downloadAllImages, hall]
  · intro conteudo mensagem hok
    by_cases hall : ((photoRequests items).all fun p => (fetchBlob p.2).isSome) = true
    · have hdef : downloadAllImages fetchBlob items
          = Except.ok
              ((photoRequests items).filterMap fun p =>
                 (fetchBlob p.2).map fun b => (p.1, b),
               "All photos have been downloaded as a ZIP file") := by
        simp [downloadAllImages, hall]
      rw [hdef] at hok
      injection hok with h
      injection h with h1 h2
      refine ⟨?_, h2.symm⟩
      rw [← h1]
      exact filterMap_length_of_all_isSome (photoRequests items) fetchBlob
        fun q hq => List.all_eq_true.mp hall q hq
    · simp [downloadAllImages, hall] at hok

/-- Witness for C7's amended theorem: a concrete always-failing fetch aborts
the batch; a concrete all-succeeding fetch keeps one entry per photo. -/
theorem zip_batch_all_or_nothing_witness :
    downloadAllImages (fun _ => none)
      [⟨"I1", 1, "quebra", ["f1.jpg"], ⟨"Produto 1", "P001", 500⟩⟩]
      = Except.error "Error downloading images" ∧
    ([(photoFileName 0 "P001" 0, "blob")] : List (String × String)).length
      = (photoRequests [⟨"I1", 1, "quebra", ["f1.jpg"], ⟨"Produto 1", "P001", 500⟩⟩]).length := by
  constructor
  · exact (zip_batch_all_or_nothing (fun _ => none)
      [⟨"I1", 1, "quebra", ["f1.jpg"], ⟨"Produto 1", "P001", 500⟩⟩]).1
      ⟨(photoFileName 0 "P001" 0, "f1.jpg"), by decide, rfl⟩
  · exact ((zip_batch_all_or_nothing (fun _ => some "blob")
      [⟨"I1", 1, "quebra", ["f1.jpg"], ⟨"Produto 1", "P001", 500⟩⟩]).2
      [(photoFileName 0 "P001" 0, "blob")]
      "All photos have been downloaded as a ZIP file" rfl).1

/-- Claim C8 counterexample: the Portuguese-schema decision operation
transitions a concrete pending submission to approved while leaving the log
table empty — the transition succeeds with no audit entry appended. -/
theorem decision_without_log_counterexample :
    atualizarStatusComLogs ⟨"a1", Perfil.admin, false⟩ "L1" Decisao.aprovado ""
      [⟨"L1", "u1", Status.pendente, "", none⟩] []
      = ([⟨"L1", "u1", Status.aprovado, "", none⟩], ([] : List LogEntry)) ∧
    Status.pendente ≠ Status.aprovado := by
  refine ⟨rfl, by decide⟩

/-- Claim C8 (amended): the English-schema `handleApproval` appends exactly
one log entry recording the acting user's id, the decision taken
(`approve_submission` / `reject_submission`) and the submission id; the
Portuguese-schema decision (`atualizarStatusLancamento`) appends no log
entry at all. -/
theorem approval_log_side_effect (actorId submissionId : String) (approved : Bool)
    (comments : String) (subs : List Submission) (logs : List LogEntry)
    (c : Caller) (lancamentoId : String) (novoStatus : Decisao) (observacao : String)
    (db : List Lancamento) (logsPt : List LogEntry) :
    (handleApproval actorId submissionId approved comments subs logs).2
      = logs ++ [approvalLogEntry actorId submissionId approved] ∧
    (approvalLogEntry actorId submissionId approved).user_id = actorId ∧
    ((approvalLogEntry actorId submissionId approved).action = "approve_submission"
      ↔ approved = true) ∧
    ((approvalLogEntry actorId submissionId approved).action = "reject_submission"
      ↔ approved = false) ∧
    (approvalLogEntry actorId submissionId approved).details
      = (if approved then "Approved" else "Rejected") ++ " submission ID: " ++ submissionId ∧
    (atualizarStatusComLogs c lancamentoId novoStatus observacao db logsPt).2 = logsPt := by
  refine ⟨rfl, rfl, ?_, ?_, rfl, rfl⟩
  · cases approved <;> simp [approvalLogEntry]
  · cases approved <;> simp [approvalLogEntry]
